import Mathlib

/-!
Shallow embedding of the `sctp-vs-tcp-performance` repository
(`src/tcp_client.py`, `src/tcp_server.py`) and proofs about it.

The Python code is sequential per execution unit; network and clock
nondeterminism is supplied to each embedded function as explicit input
(an outcome per send attempt, a duration per cycle).  Machine floats are
modelled as exact rationals; wherever a claim depends on that choice the
theorem's doc comment says so.
-/

namespace TCPClient

/-- The client metrics dictionary, `tcp_client.py` lines 18-26 (the
`start_time` / `end_time` wall-clock fields are passed separately to the
reporting functions that read them). -/
structure ClientMetrics where
  total_messages_sent : ℕ
  total_bytes_sent : ℕ
  latencies : List ℚ
  send_times : List ℚ
  failed_messages : ℕ
deriving DecidableEq

/-- The metrics dictionary as initialised in `TCPClient.__init__`. -/
def initClientMetrics : ClientMetrics :=
  { total_messages_sent := 0, total_bytes_sent := 0, latencies := [],
    send_times := [], failed_messages := 0 }

/-- Environment outcome of one `send_message` attempt: either the send and
the blocking ack receive both succeed (with the measured round-trip latency
and the recorded send-start time), or some socket operation raises. -/
inductive SendOutcome where
  | success (latency : ℚ) (sendStart : ℚ)
  | failure
deriving DecidableEq

def SendOutcome.isSuccess : SendOutcome → Bool
  | .success _ _ => true
  | .failure => false

/-- `TCPClient.send_message`, lines 45-77.  `size` is `len(message_bytes)`.
On success all four metric updates run (lines 67-70) and the method returns
`(True, latency)`; on an exception only `failed_messages` is incremented
(line 76) and it returns `(False, 0)`. -/
def send_message (size : ℕ) (o : SendOutcome) (m : ClientMetrics) :
    ClientMetrics × Bool × ℚ :=
  match o with
  | .success latency sendStart =>
      ({ m with
          total_messages_sent := m.total_messages_sent + 1
          total_bytes_sent := m.total_bytes_sent + size
          latencies := m.latencies ++ [latency]
          send_times := m.send_times ++ [sendStart] }, true, latency)
  | .failure =>
      ({ m with failed_messages := m.failed_messages + 1 }, false, 0)

/-- `TCPClient.send_bulk_messages`, lines 79-102: the loop body runs once per
iteration of `range(num_messages)` whatever `send_message` returned; the
outcome list has one entry per iteration, so its length is `num_messages`. -/
def send_bulk_messages (message_size : ℕ) :
    List SendOutcome → ClientMetrics → ClientMetrics
  | [], m => m
  | o :: os, m => send_bulk_messages message_size os (send_message message_size o m).1

/-- One iteration of the `send_variable_load` while-loop as the environment
determines it: the outcome of the `send_message` call and the wall-clock
duration of the cycle's work (`time.time() - send_start`, line 133),
measured just before the sleep decision. -/
structure Cycle where
  outcome : SendOutcome
  dur : ℚ
deriving DecidableEq

/-- Running state of the rate-limited loop: current wall-clock time, the
metrics dictionary, and the local `message_count` (line 119). -/
structure LoadState where
  now : ℚ
  metrics : ClientMetrics
  message_count : ℕ
deriving DecidableEq

/-- Body of the while-loop in `send_variable_load` (lines 121-135): one
send-and-wait-for-ack cycle, then `time.sleep(delay - elapsed)` but only
when `elapsed < delay` (lines 133-135); the clock advances by the cycle
work plus the sleep. -/
def loadCycle (size : ℕ) (delay : ℚ) (c : Cycle) (s : LoadState) : LoadState :=
  { now := s.now + c.dur + (if c.dur < delay then delay - c.dur else 0)
    metrics := (send_message size c.outcome s.metrics).1
    message_count := s.message_count + 1 }

/-- The while-loop of `send_variable_load`: `while time.time() < end_time`
(line 121).  The cycle list supplies the environment's behaviour for each
iteration the loop could make; the guard decides how many actually run. -/
def variableLoadLoop (size : ℕ) (delay endTime : ℚ) :
    List Cycle → LoadState → LoadState
  | [], s => s
  | c :: cs, s =>
      if s.now < endTime then
        variableLoadLoop size delay endTime cs (loadCycle size delay c s)
      else s

/-- `TCPClient.send_variable_load` (lines 104-139): `delay = 1.0 /
messages_per_second` (line 116), `end_time = time.time() +
duration_seconds` (line 118), then the while-loop. -/
def send_variable_load (duration_seconds messages_per_second : ℚ)
    (message_size : ℕ) (cycles : List Cycle) (startTime : ℚ)
    (m : ClientMetrics) : LoadState :=
  variableLoadLoop message_size (1 / messages_per_second)
    (startTime + duration_seconds) cycles
    { now := startTime, metrics := m, message_count := 0 }

/-- Python `min` over a non-empty list: a left fold of the binary minimum
from the head (`min(latencies_ms)`, line 164).  The empty case never arises
under the guard of line 161; 0 is a dummy. -/
def pyMin : List ℚ → ℚ
  | [] => 0
  | x :: xs => xs.foldl min x

/-- Python `max` over a non-empty list (`max(latencies_ms)`, line 165). -/
def pyMax : List ℚ → ℚ
  | [] => 0
  | x :: xs => xs.foldl max x

/-- Python `sorted`, ascending (`sorted(latencies_ms)`, line 173). -/
def pySorted (l : List ℚ) : List ℚ := l.insertionSort (· ≤ ·)

/-- The latency-statistics block printed by `display_metrics`
(lines 161-180). -/
structure LatencyStats where
  avg : ℚ
  min : ℚ
  max : ℚ
  p50 : ℚ
  p95 : ℚ
  p99 : ℚ
deriving DecidableEq

/-- Latency-statistics block of `TCPClient.display_metrics` (lines
161-180): produced only when at least one latency was recorded; the sample
list is scaled to milliseconds (line 162), the percentiles read the sorted
list at the source's indices (lines 173-176).  Python `int()` applied to
the non-negative float products `len*0.95` and `len*0.99` is modelled as
the exact floor, which natural division realises; indexing out of range
would raise in Python and is modelled by `getD` with a dummy 0 (the indices
are proved in range below). -/
def latencyStatsBlock (latencies : List ℚ) : Option LatencyStats :=
  if 0 < latencies.length then
    let latencies_ms := latencies.map (fun l => l * 1000)
    let sorted_latencies := pySorted latencies_ms
    some { avg := latencies_ms.sum / (latencies_ms.length : ℚ)
           min := pyMin latencies_ms
           max := pyMax latencies_ms
           p50 := sorted_latencies.getD (sorted_latencies.length / 2) 0
           p95 := sorted_latencies.getD (sorted_latencies.length * 95 / 100) 0
           p99 := sorted_latencies.getD (sorted_latencies.length * 99 / 100) 0 }
  else none

/-- Modelled from the spec's reporter description (not from the source):
sort the latency samples ascending and index the sorted sequence at
`floor(len*0.50)`, `floor(len*0.95)`, `floor(len*0.99)`, in exact
arithmetic.  Compared with the source's computation in the C5 theorem. -/
def specPercentiles (samples : List ℚ) : ℚ × ℚ × ℚ :=
  let sortedAsc := samples.insertionSort (· ≤ ·)
  (sortedAsc.getD ⌊(samples.length : ℚ) * (50 / 100)⌋₊ 0,
   sortedAsc.getD ⌊(samples.length : ℚ) * (95 / 100)⌋₊ 0,
   sortedAsc.getD ⌊(samples.length : ℚ) * (99 / 100)⌋₊ 0)

/-- The throughput block printed by either side's `display_metrics`. -/
structure ThroughputStats where
  msg_per_sec : ℚ
  throughput : ℚ
  avg_message_size : ℚ
deriving DecidableEq

/-- Throughput block of `TCPClient.display_metrics` (lines 182-191):
guarded by `total_messages_sent > 0 and start_time` and then by
`duration > 0`.  Python float truthiness makes the second guard
`start_time ≠ 0`; the never-started run (`start_time = None`) is modelled
by `start_time = 0`, falsy as well. -/
def throughputBlock (total_messages_sent total_bytes_sent : ℕ)
    (start_time end_time : ℚ) : Option ThroughputStats :=
  if 0 < total_messages_sent ∧ start_time ≠ 0 then
    let duration := end_time - start_time
    if 0 < duration then
      some { msg_per_sec := (total_messages_sent : ℚ) / duration
             throughput := ((total_bytes_sent : ℚ) * 8) / duration / 1000000
             avg_message_size := (total_bytes_sent : ℚ) / (total_messages_sent : ℚ) }
    else none
  else none

/-- The whole summary `TCPClient.display_metrics` produces (lines 147-196):
always a complete report, with the guarded blocks absent when their guards
fail.  The duration line (line 153) needs both timestamps truthy. -/
structure ClientReport where
  duration : Option ℚ
  total_messages_sent : ℕ
  total_bytes_sent : ℕ
  failed_messages : ℕ
  latency_stats : Option LatencyStats
  throughput_stats : Option ThroughputStats
deriving DecidableEq

def display_metrics (m : ClientMetrics) (start_time end_time : ℚ) :
    ClientReport :=
  { duration :=
      if start_time ≠ 0 ∧ end_time ≠ 0 then some (end_time - start_time)
      else none
    total_messages_sent := m.total_messages_sent
    total_bytes_sent := m.total_bytes_sent
    failed_messages := m.failed_messages
    latency_stats := latencyStatsBlock m.latencies
    throughput_stats :=
      throughputBlock m.total_messages_sent m.total_bytes_sent start_time
        end_time }

end TCPClient

namespace TCPServer

/-- The server metrics dictionary, `tcp_server.py` lines 18-25 (wall-clock
`start_time` / `end_time` passed separately to the reporting function). -/
structure ServerMetrics where
  total_connections : ℕ
  total_bytes_received : ℕ
  total_messages : ℕ
  message_timestamps : List ℚ
deriving DecidableEq

/-- The metrics dictionary as initialised in `TCPServer.__init__`. -/
def initServerMetrics : ServerMetrics :=
  { total_connections := 0, total_bytes_received := 0, total_messages := 0,
    message_timestamps := [] }

/-- A non-empty payload delivered by one `recv` call: its byte length and
whether it decodes as UTF-8 text. -/
structure Payload where
  size : ℕ
  decodable : Bool
deriving DecidableEq

/-- What the handler prints for a received payload (display only). -/
inductive LogLine where
  | text (size : ℕ)
  | binary (size : ℕ)
deriving DecidableEq

/-- One iteration of the `handle_client` receive loop for a non-empty
payload (`tcp_server.py` lines 71-95): append the receive timestamp (line
80), add the byte count (line 83), bump the message counter (line 84), try
the text decode — its failure only switches the printed line (lines 86-91)
— then send `ACK:<total_messages>` built from the post-increment counter
(lines 93-95).  Returns the new metrics, the log line and the ack text. -/
def handleMessage (p : Payload) (receive_time : ℚ) (s : ServerMetrics) :
    ServerMetrics × LogLine × String :=
  let s' := { s with
      message_timestamps := s.message_timestamps ++ [receive_time]
      total_bytes_received := s.total_bytes_received + p.size
      total_messages := s.total_messages + 1 }
  let log := if p.decodable then LogLine.text p.size else LogLine.binary p.size
  (s', log, "ACK:" ++ toString s'.total_messages)

/-- One message arrival: which connection delivered it, the payload, and
the receive time.  A list of events is a serialised interleaving of the
messages of possibly several concurrent connections. -/
structure Event where
  conn : ℕ
  payload : Payload
  time : ℚ
deriving DecidableEq

/-- The numeric part of each `ACK:` the server sends, in order of
receipt, across all connections. -/
def serverAcks : List Event → ServerMetrics → List ℕ
  | [], _ => []
  | e :: evs, s =>
      let s' := (handleMessage e.payload e.time s).1
      s'.total_messages :: serverAcks evs s'

/-- The subsequence of ack numbers sent on one given connection. -/
def acksFor (conn : ℕ) : List Event → ServerMetrics → List ℕ
  | [], _ => []
  | e :: evs, s =>
      let s' := (handleMessage e.payload e.time s).1
      if e.conn = conn then s'.total_messages :: acksFor conn evs s'
      else acksFor conn evs s'

/-- Throughput block of `TCPServer.display_metrics` (lines 127-134):
guarded by `total_messages > 0 and start_time` and then by `duration > 0`;
same float-truthiness modelling as on the client side. -/
def serverThroughputBlock (total_messages total_bytes_received : ℕ)
    (start_time end_time : ℚ) : Option TCPClient.ThroughputStats :=
  if 0 < total_messages ∧ start_time ≠ 0 then
    let duration := end_time - start_time
    if 0 < duration then
      some { msg_per_sec := (total_messages : ℚ) / duration
             throughput := ((total_bytes_received : ℚ) * 8) / duration / 1000000
             avg_message_size :=
               (total_bytes_received : ℚ) / (total_messages : ℚ) }
    else none
  else none

/-- The whole summary `TCPServer.display_metrics` produces (lines
113-136). -/
structure ServerReport where
  duration : Option ℚ
  total_connections : ℕ
  total_messages : ℕ
  total_bytes_received : ℕ
  throughput_stats : Option TCPClient.ThroughputStats
deriving DecidableEq

def display_metrics (m : ServerMetrics) (start_time end_time : ℚ) :
    ServerReport :=
  { duration :=
      if start_time ≠ 0 ∧ end_time ≠ 0 then some (end_time - start_time)
      else none
    total_connections := m.total_connections
    total_messages := m.total_messages
    total_bytes_received := m.total_bytes_received
    throughput_stats :=
      serverThroughputBlock m.total_messages m.total_bytes_received
        start_time end_time }

/-- Modelled granularity of the unguarded `self.metrics['total_messages']
+= 1` (line 84) executed by concurrent handler threads: CPython evaluates
the augmented assignment as a read of the current value followed, possibly
after a thread switch, by a write of the read value plus one; `tcp_server.py`
takes no lock anywhere.  `read t` loads the shared counter into thread
`t`'s local register; `write t` stores that register plus one back. -/
inductive IncStep where
  | read (tid : Bool)
  | write (tid : Bool)
deriving DecidableEq

/-- Shared counter plus the two handler threads' local registers. -/
structure TwoThreadCounter where
  counter : ℕ
  reg0 : Option ℕ
  reg1 : Option ℕ
deriving DecidableEq

def incStep : IncStep → TwoThreadCounter → TwoThreadCounter
  | .read false, s => { s with reg0 := some s.counter }
  | .read true, s => { s with reg1 := some s.counter }
  | .write false, s => { s with counter := s.reg0.getD 0 + 1 }
  | .write true, s => { s with counter := s.reg1.getD 0 + 1 }

def runSchedule (steps : List IncStep) (s : TwoThreadCounter) :
    TwoThreadCounter :=
  steps.foldl (fun s a => incStep a s) s

end TCPServer

namespace TCPClient

@[simp] theorem isSuccess_success (l t : ℚ) :
    (SendOutcome.success l t).isSuccess = true := rfl

@[simp] theorem isSuccess_failure : SendOutcome.failure.isSuccess = false := rfl

/-- Per-attempt shape of a bulk run, by cases on the outcome. -/
theorem send_bulk_cons (size : ℕ) (o : SendOutcome) (os : List SendOutcome)
    (m : ClientMetrics) :
    send_bulk_messages size (o :: os) m =
      send_bulk_messages size os (send_message size o m).1 := rfl

theorem bulk_total_messages (size : ℕ) (os : List SendOutcome) (m : ClientMetrics) :
    (send_bulk_messages size os m).total_messages_sent =
      m.total_messages_sent + (os.filter SendOutcome.isSuccess).length := by
  induction os generalizing m with
  | nil => simp [send_bulk_messages]
  | cons o os ih =>
      cases o with
      | success l t =>
          simp [send_bulk_messages, send_message, ih, List.filter_cons]
          omega
      | failure =>
          simp [send_bulk_messages, send_message, ih, List.filter_cons]

theorem bulk_latencies_length (size : ℕ) (os : List SendOutcome) (m : ClientMetrics) :
    (send_bulk_messages size os m).latencies.length =
      m.latencies.length + (os.filter SendOutcome.isSuccess).length := by
  induction os generalizing m with
  | nil => simp [send_bulk_messages]
  | cons o os ih =>
      cases o with
      | success l t =>
          simp [send_bulk_messages, send_message, ih, List.filter_cons]
          omega
      | failure =>
          simp [send_bulk_messages, send_message, ih, List.filter_cons]

theorem bulk_failed (size : ℕ) (os : List SendOutcome) (m : ClientMetrics) :
    (send_bulk_messages size os m).failed_messages =
      m.failed_messages + (os.filter (fun o => !o.isSuccess)).length := by
  induction os generalizing m with
  | nil => simp [send_bulk_messages]
  | cons o os ih =>
      cases o with
      | success l t =>
          simp [send_bulk_messages, send_message, ih, List.filter_cons]
      | failure =>
          simp [send_bulk_messages, send_message, ih, List.filter_cons]
          omega

theorem bulk_bytes (size : ℕ) (os : List SendOutcome) (m : ClientMetrics) :
    (send_bulk_messages size os m).total_bytes_sent =
      m.total_bytes_sent + (os.filter SendOutcome.isSuccess).length * size := by
  induction os generalizing m with
  | nil => simp [send_bulk_messages]
  | cons o os ih =>
      cases o with
      | success l t =>
          simp [send_bulk_messages, send_message, ih, List.filter_cons]
          ring
      | failure =>
          simp [send_bulk_messages, send_message, ih, List.filter_cons]

theorem filter_success_split (os : List SendOutcome) :
    (os.filter SendOutcome.isSuccess).length +
      (os.filter (fun o => !o.isSuccess)).length = os.length := by
  induction os with
  | nil => simp
  | cons o os ih =>
      cases o with
      | success l t => simp [List.filter_cons]; omega
      | failure => simp [List.filter_cons]; omega

/-- The metrics a rate-limited run leaves behind are those of the sequence
of `send_message` calls its loop actually made: the executed iterations'
outcomes form a prefix of the supplied cycle behaviours. -/
theorem variableLoadLoop_metrics (size : ℕ) (delay endT : ℚ)
    (cs : List Cycle) (s : LoadState) :
    ∃ os rest, cs.map Cycle.outcome = os ++ rest ∧
      (variableLoadLoop size delay endT cs s).metrics =
        send_bulk_messages size os s.metrics := by
  induction cs generalizing s with
  | nil => exact ⟨[], [], rfl, rfl⟩
  | cons c cs ih =>
      by_cases h : s.now < endT
      · unfold variableLoadLoop
        rw [if_pos h]
        obtain ⟨os, rest, hsplit, heq⟩ := ih (loadCycle size delay c s)
        exact ⟨c.outcome :: os, rest, by simp [hsplit], heq⟩
      · unfold variableLoadLoop
        rw [if_neg h]
        exact ⟨[], c.outcome :: cs.map Cycle.outcome, rfl, rfl⟩

/-- C2: after any completed client run from a fresh client, the number of
recorded latencies equals `total_messages_sent` (the successfully
acknowledged messages), `failed_messages + total_messages_sent` equals the
number of send attempts, and `total_bytes_sent` is the sum of the payload
sizes of the successful sends (here `successCount * size`, every payload
being the same `message_size`-byte test message).  This holds for bulk runs
directly, and for rate-limited runs via the outcome sequence `os` of the
iterations the loop executed. -/
theorem client_run_accounting (size : ℕ) (os : List SendOutcome) :
    ((send_bulk_messages size os initClientMetrics).latencies.length =
        (send_bulk_messages size os initClientMetrics).total_messages_sent ∧
      (send_bulk_messages size os initClientMetrics).failed_messages +
        (send_bulk_messages size os initClientMetrics).total_messages_sent =
        os.length ∧
      (send_bulk_messages size os initClientMetrics).total_bytes_sent =
        (os.filter SendOutcome.isSuccess).length * size) ∧
    ∀ delay endT t0 : ℚ, ∀ cs : List Cycle, ∃ ex rest : List SendOutcome,
      cs.map Cycle.outcome = ex ++ rest ∧
      (variableLoadLoop size delay endT cs
          { now := t0, metrics := initClientMetrics,
            message_count := 0 }).metrics =
        send_bulk_messages size ex initClientMetrics := by
  constructor
  · refine ⟨?_, ?_, ?_⟩
    · rw [bulk_latencies_length, bulk_total_messages]; rfl
    · have h := filter_success_split os
      rw [bulk_failed, bulk_total_messages]
      simp only [initClientMetrics] at *
      omega
    · rw [bulk_bytes]; simp [initClientMetrics]
  · intro delay endT t0 cs
    exact variableLoadLoop_metrics size delay endT cs _

/-- C3: a send attempt that raises increments the failed-message counter by
exactly 1 and leaves every other metric field unchanged, and both driving
loops continue past the failure: the bulk loop goes on to the remaining
messages, the rate-limited loop to the next scheduled slot (its guard being
still true, the recursion proceeds with the updated state). -/
theorem send_failure_non_fatal (size : ℕ) (delay endTime d : ℚ)
    (m : ClientMetrics) (os : List SendOutcome) (cs : List Cycle)
    (s : LoadState) (hs : s.now < endTime) :
    (send_message size .failure m).1.failed_messages = m.failed_messages + 1 ∧
    (send_message size .failure m).1.total_messages_sent = m.total_messages_sent ∧
    (send_message size .failure m).1.total_bytes_sent = m.total_bytes_sent ∧
    (send_message size .failure m).1.latencies = m.latencies ∧
    (send_message size .failure m).1.send_times = m.send_times ∧
    send_bulk_messages size (.failure :: os) m =
      send_bulk_messages size os (send_message size .failure m).1 ∧
    variableLoadLoop size delay endTime (⟨.failure, d⟩ :: cs) s =
      variableLoadLoop size delay endTime cs (loadCycle size delay ⟨.failure, d⟩ s) := by
  refine ⟨rfl, rfl, rfl, rfl, rfl, rfl, ?_⟩
  simp [variableLoadLoop, hs]

/-- Witness for `send_failure_non_fatal` at a concrete state whose clock is
still before the end time. -/
theorem send_failure_non_fatal_witness :
    variableLoadLoop 4 (1/2) 10 [⟨.failure, 1⟩]
        { now := 0, metrics := initClientMetrics, message_count := 0 } =
      variableLoadLoop 4 (1/2) 10 []
        (loadCycle 4 (1/2) ⟨.failure, 1⟩
          { now := 0, metrics := initClientMetrics, message_count := 0 }) :=
  (send_failure_non_fatal 4 (1/2) 10 1 initClientMetrics [] []
    { now := 0, metrics := initClientMetrics, message_count := 0 }
    (by decide)).2.2.2.2.2.2

/-- C8: rate-limited mode with target rate `R` over duration `D` uses the
inter-message delay `1/R` (that is how `send_variable_load` instantiates its
loop); the loop body runs only while elapsed wall-clock time is below `D`
(once `t0 + D ≤ now` it returns the state untouched); each executed cycle
sleeps `max 0 (delay - cycle_duration)`; and the clock never advances by
less than the delay, so slow cycles are never compensated by shortening. -/
theorem rate_limited_behavior (R D t0 : ℚ) (size : ℕ) (m : ClientMetrics)
    (cycles rest : List Cycle) (c : Cycle) (s : LoadState)
    (hs : t0 + D ≤ s.now) :
    send_variable_load D R size cycles t0 m =
      variableLoadLoop size (1 / R) (t0 + D) cycles
        { now := t0, metrics := m, message_count := 0 } ∧
    variableLoadLoop size (1 / R) (t0 + D) rest s = s ∧
    (loadCycle size (1 / R) c s).now = s.now + c.dur + max 0 (1 / R - c.dur) ∧
    s.now + 1 / R ≤ (loadCycle size (1 / R) c s).now := by
  refine ⟨rfl, ?_, ?_, ?_⟩
  · cases rest with
    | nil => rfl
    | cons c' cs' => simp [variableLoadLoop, not_lt.mpr hs]
  · show s.now + c.dur + (if c.dur < 1 / R then 1 / R - c.dur else 0) = _
    rcases lt_or_le c.dur (1 / R) with h | h
    · rw [if_pos h, max_eq_right (by linarith)]
    · rw [if_neg (not_lt.mpr h), max_eq_left (by linarith)]
  · show s.now + 1 / R ≤ s.now + c.dur + (if c.dur < 1 / R then 1 / R - c.dur else 0)
    rcases lt_or_le c.dur (1 / R) with h | h
    · rw [if_pos h]; linarith
    · rw [if_neg (not_lt.mpr h)]; linarith

/-- Witness for `rate_limited_behavior` at rate 2, duration 1, and a state
whose clock has already passed the end time. -/
theorem rate_limited_behavior_witness :
    variableLoadLoop 1 (1 / 2) ((0 : ℚ) + 1) [⟨.failure, 0⟩]
        { now := (0 : ℚ) + 1, metrics := initClientMetrics, message_count := 0 } =
      { now := (0 : ℚ) + 1, metrics := initClientMetrics, message_count := 0 } :=
  (rate_limited_behavior 2 1 0 1 initClientMetrics [] [⟨.failure, 0⟩]
    ⟨.success 1 0, 1/4⟩
    { now := (0 : ℚ) + 1, metrics := initClientMetrics, message_count := 0 }
    (le_refl _)).2.1

theorem natFloor_mul_ratio (n a b : ℕ) :
    ⌊(n : ℚ) * ((a : ℚ) / (b : ℚ))⌋₊ = n * a / b := by
  rw [show (n : ℚ) * ((a : ℚ) / (b : ℚ)) = ((n * a : ℕ) : ℚ) / ((b : ℕ) : ℚ) by
    push_cast; ring]
  rw [Nat.floor_div_nat, Nat.floor_natCast]

theorem specIdx_p50 (n : ℕ) : ⌊(n : ℚ) * (50 / 100)⌋₊ = n / 2 := by
  rw [show ((50 : ℚ) / 100) = ((50 : ℕ) : ℚ) / ((100 : ℕ) : ℚ) by norm_num]
  rw [natFloor_mul_ratio]
  omega

theorem specIdx_p95 (n : ℕ) : ⌊(n : ℚ) * (95 / 100)⌋₊ = n * 95 / 100 := by
  rw [show ((95 : ℚ) / 100) = ((95 : ℕ) : ℚ) / ((100 : ℕ) : ℚ) by norm_num]
  rw [natFloor_mul_ratio]

theorem specIdx_p99 (n : ℕ) : ⌊(n : ℚ) * (99 / 100)⌋₊ = n * 99 / 100 := by
  rw [show ((99 : ℚ) / 100) = ((99 : ℕ) : ℚ) / ((100 : ℕ) : ℚ) by norm_num]
  rw [natFloor_mul_ratio]

/-- C5: whenever the reporter produces a latency block (that is, for every
non-empty sample list) its p50/p95/p99 are exactly the spec's description:
sort the (millisecond-scaled) samples ascending and index the sorted
sequence at `floor(len*0.50)`, `floor(len*0.95)`, `floor(len*0.99)`
(`int()` on these non-negative products modelled as the exact floor). -/
theorem percentiles_match_spec (l : List ℚ) (st : LatencyStats)
    (h : latencyStatsBlock l = some st) :
    (st.p50, st.p95, st.p99) = specPercentiles (l.map (fun x => x * 1000)) := by
  unfold latencyStatsBlock at h
  by_cases hl : 0 < l.length
  · rw [if_pos hl, Option.some.injEq] at h
    subst h
    unfold specPercentiles pySorted
    simp only [List.length_insertionSort, List.length_map,
      specIdx_p50, specIdx_p95, specIdx_p99]
  · rw [if_neg hl] at h
    exact absurd h (by simp)

/-- Witness for `percentiles_match_spec` on the one-sample list `[0]`. -/
theorem percentiles_match_spec_witness :
    (({ avg := 0, min := 0, max := 0, p50 := 0, p95 := 0, p99 := 0 } :
        LatencyStats).p50,
     ({ avg := 0, min := 0, max := 0, p50 := 0, p95 := 0, p99 := 0 } :
        LatencyStats).p95,
     ({ avg := 0, min := 0, max := 0, p50 := 0, p95 := 0, p99 := 0 } :
        LatencyStats).p99) =
      specPercentiles ([(0 : ℚ)].map (fun x => x * 1000)) :=
  percentiles_match_spec [0] _
    (by simp [latencyStatsBlock, pySorted, pyMin, pyMax,
      List.insertionSort, List.orderedInsert])

theorem foldl_min_le (xs : List ℚ) (a : ℚ) :
    xs.foldl min a ≤ a ∧ ∀ x ∈ xs, xs.foldl min a ≤ x := by
  induction xs generalizing a with
  | nil => simp
  | cons y ys ih =>
      have h := ih (min a y)
      refine ⟨h.1.trans (min_le_left _ _), ?_⟩
      intro x hx
      rcases List.mem_cons.mp hx with rfl | hx
      · exact h.1.trans (min_le_right _ _)
      · exact h.2 x hx

theorem le_foldl_max (xs : List ℚ) (a : ℚ) :
    a ≤ xs.foldl max a ∧ ∀ x ∈ xs, x ≤ xs.foldl max a := by
  induction xs generalizing a with
  | nil => simp
  | cons y ys ih =>
      have h := ih (max a y)
      refine ⟨(le_max_left _ _).trans h.1, ?_⟩
      intro x hx
      rcases List.mem_cons.mp hx with rfl | hx
      · exact (le_max_right _ _).trans h.1
      · exact h.2 x hx

theorem pyMin_le {l : List ℚ} {x : ℚ} (hx : x ∈ l) : pyMin l ≤ x := by
  cases l with
  | nil => cases hx
  | cons y ys =>
      rcases List.mem_cons.mp hx with rfl | hx
      · exact (foldl_min_le ys x).1
      · exact (foldl_min_le ys y).2 x hx

theorem le_pyMax {l : List ℚ} {x : ℚ} (hx : x ∈ l) : x ≤ pyMax l := by
  cases l with
  | nil => cases hx
  | cons y ys =>
      rcases List.mem_cons.mp hx with rfl | hx
      · exact (le_foldl_max ys x).1
      · exact (le_foldl_max ys y).2 x hx

theorem sorted_getD_mono {S : List ℚ} (hS : S.Sorted (· ≤ ·)) {i j : ℕ}
    (hij : i ≤ j) (hj : j < S.length) : S.getD i 0 ≤ S.getD j 0 := by
  rw [List.getD_eq_getElem _ _ (lt_of_le_of_lt hij hj),
    List.getD_eq_getElem _ _ hj]
  have := hS.rel_get_of_le
    (a := ⟨i, lt_of_le_of_lt hij hj⟩) (b := ⟨j, hj⟩) (by simpa using hij)
  simpa using this

/-- C6: the reported percentiles of any non-empty latency sample list
satisfy `p50 ≤ p95 ≤ p99`, and its aggregate statistics satisfy
`min ≤ avg ≤ max`. -/
theorem latency_stats_ordered (l : List ℚ) (st : LatencyStats)
    (h : latencyStatsBlock l = some st) :
    st.p50 ≤ st.p95 ∧ st.p95 ≤ st.p99 ∧ st.min ≤ st.avg ∧ st.avg ≤ st.max := by
  unfold latencyStatsBlock at h
  by_cases hl : 0 < l.length
  · rw [if_pos hl, Option.some.injEq] at h
    subst h
    set L := l.map (fun x => x * 1000) with hL
    have hLlen : L.length = l.length := List.length_map _ _
    have hLpos : 0 < L.length := by omega
    have hS : (pySorted L).Sorted (· ≤ ·) := List.sorted_insertionSort _ _
    have hSlen : (pySorted L).length = L.length :=
      List.length_insertionSort _ _
    refine ⟨?_, ?_, ?_, ?_⟩
    · exact sorted_getD_mono hS (by omega) (by omega)
    · exact sorted_getD_mono hS (by omega) (by omega)
    · have hmem : ∀ x ∈ L, pyMin L ≤ x := fun x hx => pyMin_le hx
      have hsum := List.card_nsmul_le_sum L (pyMin L) hmem
      rw [nsmul_eq_mul] at hsum
      have hn : (0 : ℚ) < (L.length : ℚ) := by exact_mod_cast hLpos
      rw [le_div_iff₀ hn]
      calc pyMin L * (L.length : ℚ) = (L.length : ℚ) * pyMin L := by ring
        _ ≤ L.sum := hsum
    · have hmem : ∀ x ∈ L, x ≤ pyMax L := fun x hx => le_pyMax hx
      have hsum := List.sum_le_card_nsmul L (pyMax L) hmem
      rw [nsmul_eq_mul] at hsum
      have hn : (0 : ℚ) < (L.length : ℚ) := by exact_mod_cast hLpos
      rw [div_le_iff₀ hn]
      calc L.sum ≤ (L.length : ℚ) * pyMax L := hsum
        _ = pyMax L * (L.length : ℚ) := by ring
  · rw [if_neg hl] at h
    exact absurd h (by simp)

/-- Witness for `latency_stats_ordered` on the one-sample list `[1]`. -/
theorem latency_stats_ordered_witness :
    ({ avg := 1000, min := 1000, max := 1000, p50 := 1000, p95 := 1000,
        p99 := 1000 } : LatencyStats).p50 ≤
      ({ avg := 1000, min := 1000, max := 1000, p50 := 1000, p95 := 1000,
          p99 := 1000 } : LatencyStats).p95 :=
  (latency_stats_ordered [1] _
    (by simp [latencyStatsBlock, pySorted, pyMin, pyMax,
      List.insertionSort, List.orderedInsert])).1

/-- C7: whenever the run recorded at least one message and a positive
duration (with the start timestamp truthy), the client reports messages per
second `total_messages_sent / duration` and throughput
`total_bytes_sent * 8 / duration / 1e6` Mbps, and the server reports
`total_messages / duration` and `total_bytes_received * 8 / duration / 1e6`
— exactly these expressions, in the exact-rational model of the floats. -/
theorem throughput_identity (cm cb sm sb : ℕ) (st en : ℚ)
    (hc : 0 < cm) (hsm : 0 < sm) (hst : st ≠ 0) (hd : 0 < en - st) :
    throughputBlock cm cb st en =
      some { msg_per_sec := (cm : ℚ) / (en - st)
             throughput := (cb : ℚ) * 8 / (en - st) / 1000000
             avg_message_size := (cb : ℚ) / (cm : ℚ) } ∧
    TCPServer.serverThroughputBlock sm sb st en =
      some { msg_per_sec := (sm : ℚ) / (en - st)
             throughput := (sb : ℚ) * 8 / (en - st) / 1000000
             avg_message_size := (sb : ℚ) / (sm : ℚ) } := by
  constructor <;>
    simp [throughputBlock, TCPServer.serverThroughputBlock, hc, hsm, hst, hd]

/-- Witness for `throughput_identity` with one 1-byte message on each side
over a unit duration. -/
theorem throughput_identity_witness :
    throughputBlock 1 1 1 (1 + 1) =
      some { msg_per_sec := ((1 : ℕ) : ℚ) / ((1 + 1) - 1)
             throughput := ((1 : ℕ) : ℚ) * 8 / ((1 + 1) - 1) / 1000000
             avg_message_size := ((1 : ℕ) : ℚ) / ((1 : ℕ) : ℚ) } :=
  (throughput_identity 1 1 1 1 1 (1 + 1) (by decide) (by decide)
    (by simp) (by simp)).1

/-- C10: metrics reporting is total at its edge cases.  For every non-empty
latency list the three percentile indices are strictly below the list
length (so the indexing of the sorted list cannot go out of range), and
both `display_metrics` functions always yield a full summary — when the run
recorded no message, or its duration is zero, the guarded division blocks
are simply absent while the totals are still reported. -/
theorem reporting_total_at_edges (l : List ℚ) (hl : l ≠ [])
    (m : ClientMetrics) (sm : TCPServer.ServerMetrics) (st en : ℚ) :
    (l.length / 2 < l.length ∧ l.length * 95 / 100 < l.length ∧
      l.length * 99 / 100 < l.length) ∧
    (m.latencies = [] → (display_metrics m st en).latency_stats = none) ∧
    (m.total_messages_sent = 0 →
      (display_metrics m st en).throughput_stats = none) ∧
    (en - st = 0 → (display_metrics m st en).throughput_stats = none) ∧
    (display_metrics m st en).total_messages_sent = m.total_messages_sent ∧
    (display_metrics m st en).total_bytes_sent = m.total_bytes_sent ∧
    (display_metrics m st en).failed_messages = m.failed_messages ∧
    (sm.total_messages = 0 →
      (TCPServer.display_metrics sm st en).throughput_stats = none) ∧
    (en - st = 0 →
      (TCPServer.display_metrics sm st en).throughput_stats = none) ∧
    (TCPServer.display_metrics sm st en).total_messages = sm.total_messages ∧
    (TCPServer.display_metrics sm st en).total_bytes_received =
      sm.total_bytes_received ∧
    (TCPServer.display_metrics sm st en).total_connections =
      sm.total_connections := by
  have hn : 0 < l.length := List.length_pos.mpr hl
  refine ⟨⟨by omega, by omega, by omega⟩, ?_, ?_, ?_, rfl, rfl, rfl, ?_, ?_,
    rfl, rfl, rfl⟩
  · intro h
    simp [display_metrics, latencyStatsBlock, h]
  · intro h
    simp [display_metrics, throughputBlock, h]
  · intro h
    by_cases hg : 0 < m.total_messages_sent ∧ st ≠ 0 <;>
      simp [display_metrics, throughputBlock, hg, h]
  · intro h
    simp [TCPServer.display_metrics, TCPServer.serverThroughputBlock, h]
  · intro h
    by_cases hg : 0 < sm.total_messages ∧ st ≠ 0 <;>
      simp [TCPServer.display_metrics, TCPServer.serverThroughputBlock, hg, h]

/-- Witness for `reporting_total_at_edges` on a one-element latency list
and fresh metrics. -/
theorem reporting_total_at_edges_witness :
    [(0 : ℚ)].length / 2 < [(0 : ℚ)].length :=
  (reporting_total_at_edges [0] (by simp) initClientMetrics
    TCPServer.initServerMetrics 0 0).1.1

end TCPClient

namespace TCPServer

/-- C9: a payload that fails to decode as UTF-8 is handled exactly like one
that decodes.  The handler's metric updates (lines 78-84) run before the
decode attempt, the `try/except` around the decode (lines 87-91) only
switches the printed line, and the acknowledgment (lines 93-95) is sent
either way: the resulting metrics and ack text are identical for the
decodable and non-decodable payload of the same size. -/
theorem decode_failure_non_fatal (size : ℕ) (t : ℚ) (s : ServerMetrics) :
    (handleMessage ⟨size, false⟩ t s).1 = (handleMessage ⟨size, true⟩ t s).1 ∧
    (handleMessage ⟨size, false⟩ t s).2.2 =
      (handleMessage ⟨size, true⟩ t s).2.2 ∧
    (handleMessage ⟨size, false⟩ t s).1.message_timestamps =
      s.message_timestamps ++ [t] ∧
    (handleMessage ⟨size, false⟩ t s).1.total_bytes_received =
      s.total_bytes_received + size ∧
    (handleMessage ⟨size, false⟩ t s).1.total_messages =
      s.total_messages + 1 :=
  ⟨rfl, rfl, rfl, rfl, rfl⟩

/-- C1 fails on the code: the ack number is the server-global
`total_messages` counter (line 94), not a counter local to the session.
Concretely, when one message of connection 0 is received before connection
1's first message, connection 1's first ack is `ACK:2`, not `ACK:1`; and
connection 0's ack sequence changes from `[1, 2]` to `[1, 3]` when a
message of connection 1 is interleaved, so the numbering of one connection
is not independent of messages received on the other. -/
theorem ack_not_per_session :
    acksFor 1 [⟨0, ⟨5, true⟩, 0⟩, ⟨1, ⟨5, true⟩, 0⟩] initServerMetrics =
      [2] ∧
    acksFor 1 [⟨0, ⟨5, true⟩, 0⟩, ⟨1, ⟨5, true⟩, 0⟩] initServerMetrics ≠
      [1] ∧
    acksFor 0 [⟨0, ⟨5, true⟩, 0⟩, ⟨1, ⟨5, true⟩, 0⟩, ⟨0, ⟨5, true⟩, 0⟩]
        initServerMetrics = [1, 3] ∧
    acksFor 0 [⟨0, ⟨5, true⟩, 0⟩, ⟨0, ⟨5, true⟩, 0⟩] initServerMetrics =
      [1, 2] :=
  ⟨rfl, ne_of_eq_of_ne rfl (by decide), rfl, rfl⟩

theorem serverAcks_eq_range (evs : List Event) (s : ServerMetrics) :
    serverAcks evs s = List.range' (s.total_messages + 1) evs.length := by
  induction evs generalizing s with
  | nil => rfl
  | cons e evs ih =>
      show (s.total_messages + 1) :: serverAcks evs _ = _
      rw [ih]
      rfl

theorem acksFor_gt (c : ℕ) (evs : List Event) (s : ServerMetrics) :
    ∀ a ∈ acksFor c evs s, s.total_messages < a := by
  induction evs generalizing s with
  | nil => simp [acksFor]
  | cons e evs ih =>
      intro a ha
      unfold acksFor at ha
      by_cases hc : e.conn = c
      · rw [if_pos hc] at ha
        rcases List.mem_cons.mp ha with rfl | ha
        · exact Nat.lt_succ_self _
        · exact Nat.lt_of_succ_lt (ih _ a ha)
      · rw [if_neg hc] at ha
        exact Nat.lt_of_succ_lt (ih _ a ha)

theorem acksFor_sorted (c : ℕ) (evs : List Event) (s : ServerMetrics) :
    List.Sorted (· < ·) (acksFor c evs s) := by
  induction evs generalizing s with
  | nil => simp [acksFor]
  | cons e evs ih =>
      unfold acksFor
      by_cases hc : e.conn = c
      · rw [if_pos hc]
        exact List.sorted_cons.mpr ⟨fun b hb => acksFor_gt c evs _ b hb, ih _⟩
      · rw [if_neg hc]
        exact ih _

theorem acksFor_of_single_conn (c : ℕ) (evs : List Event) (s : ServerMetrics)
    (h : ∀ e ∈ evs, e.conn = c) : acksFor c evs s = serverAcks evs s := by
  induction evs generalizing s with
  | nil => rfl
  | cons e evs ih =>
      unfold acksFor serverAcks
      rw [if_pos (h e (List.mem_cons_self e evs)),
        ih _ (fun e' he' => h e' (List.mem_cons_of_mem e he'))]

/-- C1 amended: the ack numbers come from the server-global
`total_messages` counter, so over any serialised interleaving of the
connections' messages the acks across the whole server are `1, 2, 3, …` in
order of receipt; within each single connection they are strictly
increasing; and they run `1, 2, …` from 1 exactly when the connection's
messages are the only ones the server receives. -/
theorem ack_global_counter (evs : List Event) :
    serverAcks evs initServerMetrics = List.range' 1 evs.length ∧
    (∀ c, List.Sorted (· < ·) (acksFor c evs initServerMetrics)) ∧
    ∀ conn, (∀ e ∈ evs, e.conn = conn) →
      acksFor conn evs initServerMetrics = List.range' 1 evs.length := by
  refine ⟨serverAcks_eq_range evs initServerMetrics,
    fun c => acksFor_sorted c evs _, ?_⟩
  intro conn h
  rw [acksFor_of_single_conn conn evs _ h]
  exact serverAcks_eq_range evs initServerMetrics

/-- Witness for `ack_global_counter`: a lone connection 7 sending two
messages is acknowledged `ACK:1`, `ACK:2`. -/
theorem ack_global_counter_witness :
    acksFor 7 [⟨7, ⟨3, true⟩, 0⟩, ⟨7, ⟨4, false⟩, 0⟩] initServerMetrics =
      List.range' 1
        ([⟨7, ⟨3, true⟩, 0⟩, ⟨7, ⟨4, false⟩, 0⟩] : List Event).length :=
  (ack_global_counter [⟨7, ⟨3, true⟩, 0⟩, ⟨7, ⟨4, false⟩, 0⟩]).2.2 7
    (by decide)

/-- C4 evidence against the code: `tcp_server.py` takes no lock around its
metric updates while running one handler thread per connection.  Under the
read/write granularity of the unguarded `+= 1`, two handlers that each
receive one message can interleave as read₀, read₁, write₀, write₁, leaving
the shared counter at 1 after two increments — one update is lost — whereas
a serial order leaves it at 2. -/
theorem unguarded_increment_loses_update :
    (runSchedule [.read false, .read true, .write false, .write true]
        { counter := 0, reg0 := none, reg1 := none }).counter = 1 ∧
    (runSchedule [.read false, .write false, .read true, .write true]
        { counter := 0, reg0 := none, reg1 := none }).counter = 2 :=
  ⟨rfl, rfl⟩

end TCPServer
